import Mathlib

/-!
# Verification of the LiteConvert conversion core

Shallow embedding of the LiteConvert batch file converter
(`liteconvert/utils.py`, `liteconvert/convert.py`, `liteconvert/workers.py`)
and proofs about its specified behaviour.

Modelling conventions:
* Python `pathlib.Path` values are modelled as plain `String`s; the
  `stem` / `suffix` / `name` accessors are reimplemented following the
  `pathlib` rules for the final path component.
* The filesystem is a map `String → Option FileContent`; opening a file
  with mode `"wb"` installs an empty file, a completed write installs its
  content.  Only existence and content of files matter to the claims.
* External codec libraries (PIL, PyMuPDF/fitz, img2pdf) are black boxes,
  modelled by an environment `Env` of oracles which either succeed or
  raise with a message, exactly at the call sites where the Python code
  can raise.  Quantifying over all environments covers all behaviours of
  the libraries.
* Wall-clock timing (`time.perf_counter`) is not modelled; `elapsed_s`
  fields are fixed to `0`.  Progress-fraction floats carried by progress
  events are likewise not modelled (the events are kept, their numeric
  payload dropped); no claim mentions either.
* The cooperative cancellation flag is set asynchronously by the UI
  thread and polled by the worker.  Every poll sequence of such a flag is
  monotone, i.e. of the form "false before time `t`, true from `t` on";
  `Env.cancelTime` is that `t` (`none` = never cancelled), and a poll
  counter is threaded through the code at exactly the Python poll sites.
-/

/-! ## Python string primitives -/

/-- Characters treated as whitespace by Python's `str.strip()` / `int()`
(ASCII fragment; the sources only ever meet ASCII whitespace). -/
def pyWsChars : List Char := [' ', '\t', '\n', '\r', Char.ofNat 11, Char.ofNat 12]

/-- Drop leading characters belonging to `cs`. -/
def trimLeft (cs : List Char) (l : List Char) : List Char :=
  l.dropWhile (fun c => cs.contains c)

/-- Drop leading and trailing characters belonging to `cs`
(Python `str.strip(chars)`). -/
def trimSet (cs : List Char) (l : List Char) : List Char :=
  ((trimLeft cs l).reverse.dropWhile (fun c => cs.contains c)).reverse

/-- Python `str.strip(chars)` on `String`s. -/
def pyStrip (cs : String) (s : String) : String :=
  ⟨trimSet cs.data s.data⟩

/-- Python `str.strip()` (whitespace). -/
def pyStripWs (s : String) : String := pyStrip ⟨pyWsChars⟩ s

/-- Python `str.lstrip(chars)` on `String`s. -/
def pyLstrip (cs : String) (s : String) : String :=
  ⟨trimLeft cs.data s.data⟩

/-- ASCII lower-casing (`str.lower()`; the sources only lower-case
extensions and fixed option labels, all ASCII). -/
def pyLower (s : String) : String := ⟨s.data.map Char.toLower⟩

/-- `startsList pat l` : does `l` start with `pat`? -/
def startsList : List Char → List Char → Bool
  | [], _ => true
  | _ :: _, [] => false
  | a :: as, b :: bs => a == b && startsList as bs

/-- Python `str.replace(old, new)`: replace all non-overlapping
occurrences of `pat`, scanning left to right.  Fuel-indexed so that the
definition is structural and evaluates by `rfl`/`decide`; each step
consumes at least one character, so `l.length` fuel is always enough
(`pyReplace` below supplies it).  The empty-pattern case (where Python
would interleave `new` everywhere) is never exercised by the sources. -/
def replaceFuel (pat new : List Char) : Nat → List Char → List Char
  | _, [] => []
  | 0, l => l
  | Nat.succ n, c :: rest =>
    if startsList pat (c :: rest) then
      match pat with
      | [] => c :: rest
      | _ :: ps => new ++ replaceFuel pat new n (rest.drop ps.length)
    else c :: replaceFuel pat new n rest

/-- Python `str.replace(old, new)` on `String`s. -/
def pyReplace (s pat new : String) : String :=
  ⟨replaceFuel pat.data new.data s.data.length s.data⟩

/-- Is `"--"` a substring? (the loop guard `while "--" in out`). -/
def hasDD : List Char → Bool
  | [] => false
  | [_] => false
  | c :: d :: rest => (c == '-' && d == '-') || hasDD (d :: rest)

/-- The Python loop `while "--" in out: out = out.replace("--", "-")`.
Each iteration that fires strictly shrinks the string, so `length + 1`
fuel (supplied by `pyCollapseDD`) always suffices. -/
def collapseLoop : Nat → List Char → List Char
  | 0, l => l
  | Nat.succ n, l =>
    if hasDD l then collapseLoop n (replaceFuel ['-', '-'] ['-'] l.length l) else l

/-- `while "--" in out: out = out.replace("--", "-")` on `String`s. -/
def pyCollapseDD (s : String) : String :=
  ⟨collapseLoop (s.data.length + 1) s.data⟩

/-- Specification-side function: ONE left-to-right pass replacing each
non-overlapping pair `aa` by a single `a` — the semantics of a single
Python `replace(aa, a)` call, written as structural recursion.  Used to
state the amended naming claim independently of the fuel-indexed
implementation model. -/
def pairPass (a : Char) : List Char → List Char
  | [] => []
  | [c] => [c]
  | c :: d :: rest =>
    if c = a ∧ d = a then a :: pairPass a rest else c :: pairPass a (d :: rest)

/-- Specification-side function: collapse every run of consecutive
`'-'` characters to a single `'-'` (what the `while "--"` loop
achieves), written as direct run-collapsing recursion. -/
def dashRun : List Char → List Char
  | [] => []
  | [c] => [c]
  | c :: d :: rest =>
    if c = '-' ∧ d = '-' then dashRun (d :: rest) else c :: dashRun (d :: rest)

/-! ### Python `int()` -/

/-- Digit-run parser for Python `int`: digits with single underscores
allowed strictly between digits. `acc` is the value read so far. -/
def digitsGo (acc : Nat) : List Char → Option Nat
  | [] => some acc
  | '_' :: c :: rest =>
    if c.isDigit then digitsGo (acc * 10 + (c.toNat - 48)) rest else none
  | ['_'] => none
  | c :: rest =>
    if c.isDigit then digitsGo (acc * 10 + (c.toNat - 48)) rest else none

/-- Nonempty digit run (first char must be a digit). -/
def digitsVal : List Char → Option Nat
  | [] => none
  | c :: rest => if c.isDigit then digitsGo (c.toNat - 48) rest else none

/-- Python `int(s)` (ASCII): strips surrounding whitespace, one optional
sign, then a digit run; `none` models `ValueError`. -/
def pyInt (s : String) : Option Int :=
  match trimSet pyWsChars s.data with
  | [] => none
  | '+' :: rest => (digitsVal rest).map (fun n => (n : Int))
  | '-' :: rest => (digitsVal rest).map (fun n => -(n : Int))
  | l => (digitsVal l).map (fun n => (n : Int))

/-- Split at the first occurrence of `sep` (Python `s.split(sep, 1)`,
assuming `sep` occurs). -/
def splitFirst (sep : Char) : List Char → (List Char × List Char)
  | [] => ([], [])
  | c :: rest =>
    if c = sep then ([], rest)
    else
      let (a, b) := splitFirst sep rest
      (c :: a, b)

/-- Python `s.split(sep)` for a one-character separator (all the split
call sites use `","` or `"/"`). -/
def splitOnChar (sep : Char) : List Char → List (List Char)
  | [] => [[]]
  | c :: rest =>
    match splitOnChar sep rest with
    | [] => [[]]
    | t :: ts => if c = sep then [] :: t :: ts else (c :: t) :: ts

/-- `splitOnChar` on `String`s. -/
def pySplitChar (s : String) (sep : Char) : List String :=
  (splitOnChar sep s.data).map (fun l => ⟨l⟩)

/-! ## `pathlib.Path` accessors (on the final component) -/

/-- Final path component (`Path.name`). -/
def lastComponent (p : String) : String := (pySplitChar p '/').getLastD ""

/-- Split a file name into `(stem, suffix)` following `pathlib`: the
suffix starts at the last dot, provided that dot is neither the first
nor the last character of the name. -/
def suffixSplit (n : List Char) : List Char × List Char :=
  let pre := n.reverse.takeWhile (fun c => c ≠ '.')
  if pre.length = n.length then (n, [])
  else if pre.length = 0 then (n, [])
  else if n.length < pre.length + 2 then (n, [])
  else (n.take (n.length - pre.length - 1), n.drop (n.length - pre.length - 1))

/-- `Path.stem`. -/
def pathStem (p : String) : String := ⟨(suffixSplit (lastComponent p).data).1⟩

/-- `Path.suffix`. -/
def pathSuffix (p : String) : String := ⟨(suffixSplit (lastComponent p).data).2⟩

/-- `dir / name` (pathlib join; the sources always join onto a
directory path). -/
def pathJoin (d n : String) : String :=
  if d = "" ∨ d = "." then n else d ++ "/" ++ n

/-- `Path.parent` (as a string; root/relative corner cases reduce to
`"."` exactly as `pathlib` does for bare names). -/
def pathParent (p : String) : String :=
  let parts := pySplitChar p '/'
  if parts.length ≤ 1 then "."
  else match parts.dropLast with
       | [] => "."
       | q :: qs => qs.foldl (fun acc r => acc ++ "/" ++ r) q

/-! ## `liteconvert/utils.py` : classification, page ranges, naming -/

def IMAGE_EXTS : List String := [".jpg", ".jpeg", ".png"]
def HEIC_EXTS : List String := [".heic", ".heif"]

/-- `is_image_file` (utils.py): suffix lower-cased against JPEG/PNG. -/
def is_image_file (p : String) : Bool := IMAGE_EXTS.contains (pyLower (pathSuffix p))

/-- `is_heic_file` (utils.py). -/
def is_heic_file (p : String) : Bool := HEIC_EXTS.contains (pyLower (pathSuffix p))

/-- `is_pdf_file` (utils.py). -/
def is_pdf_file (p : String) : Bool := pyLower (pathSuffix p) == ".pdf"

/-- `list(range(1, m + 1))` over Python ints. -/
def intRangeFrom1 (m : Int) : List Int :=
  if m ≤ 0 then [] else (List.range m.toNat).map (fun (i : Nat) => (i : Int) + 1)

/-- `list(range(a, b + 1))` over Python ints. -/
def intRangeClosed (a b : Int) : List Int :=
  if b < a then [] else (List.range (b - a + 1).toNat).map (fun (i : Nat) => a + (i : Int))

/-- Python truthiness of `Optional[int]` (`None` and `0` are falsy). -/
def optIntTruthy : Option Int → Bool
  | none => false
  | some m => m != 0

/-- The guard `max_pages and n > max_pages`. -/
def overMaxPages (maxp : Option Int) (n : Int) : Bool :=
  match maxp with
  | none => false
  | some m => m != 0 && n > m

/-- The token-collection loop of `parse_page_range`: one pass over the
comma-separated parts, accumulating raw page numbers. -/
def collectParts : List String → List Int
  | [] => []
  | part :: rest =>
    let t := trimSet pyWsChars part.data
    if t = [] then collectParts rest
    else if t.contains '-' then
      let (s1, s2) := splitFirst '-' t
      match pyInt ⟨s1⟩, pyInt ⟨s2⟩ with
      | some start0, some end0 =>
        let start1 := if start0 ≤ 0 then 1 else start0
        let (lo, hi) := if end0 < start1 then (end0, start1) else (start1, end0)
        intRangeClosed lo hi ++ collectParts rest
      | _, _ => collectParts rest
    else
      match pyInt ⟨t⟩ with
      | some n => if n ≤ 0 then collectParts rest else n :: collectParts rest
      | none => collectParts rest

/-- The de-duplication / max-pages pass of `parse_page_range` (`seen`
is the set of already-emitted values). -/
def dedupePages (maxp : Option Int) (seen : List Int) : List Int → List Int
  | [] => []
  | n :: rest =>
    if seen.contains n then dedupePages maxp seen rest
    else if overMaxPages maxp n then dedupePages maxp seen rest
    else n :: dedupePages maxp (n :: seen) rest

/-- `parse_page_range` (utils.py, lines 90–133). -/
def parse_page_range (page_range : String) (max_pages : Option Int) : List Int :=
  if page_range = "" then
    if optIntTruthy max_pages then intRangeFrom1 (max_pages.getD 0) else []
  else
    dedupePages max_pages [] (collectParts (pySplitChar page_range ','))

/-- `NamingContext` (utils.py). -/
structure NamingContext where
  input_path : String
  mode : String
  index : Option Int := none
  page : Option Int := none
deriving DecidableEq

/-- The token→value mapping built by `expand_naming_pattern`
(dict insertion order). -/
def namingMapping (ctx : NamingContext) : List (String × String) :=
  [("{name}", pathStem ctx.input_path),
   ("{ext}", pyLower (pyLstrip "." (pathSuffix ctx.input_path))),
   ("{index}", match ctx.index with | some i => toString i | none => ""),
   ("{page}", match ctx.page with | some i => toString i | none => ""),
   ("{mode}", ctx.mode)]

/-- `expand_naming_pattern` (utils.py, lines 161–180): substitute the
five tokens, run `out.replace("__", "_")` once, run the
`while "--" in out` collapse loop, then `strip(" _-.")`. -/
def expand_naming_pattern (pattern : String) (ctx : NamingContext) : String :=
  let out := (namingMapping ctx).foldl (fun out kv => pyReplace out kv.1 kv.2) pattern
  let out := pyReplace out "__" "_"
  let out := pyCollapseDD out
  pyStrip " _-." out

/-- The amended specification of `expand_naming_pattern`: substitute
the five tokens, make ONE left-to-right non-overlapping pair-collapse
pass over `'_'` (so longer underscore runs are only halved, not fully
collapsed), fully collapse every run of `'-'`, and trim leading and
trailing `' '`, `'_'`, `'-'`, `'.'`.  Stated with the independent
`pairPass` / `dashRun` recursions; the theorem for claim C9 proves the
implementation equal to this. -/
def expand_naming_pattern_amended (pattern : String) (ctx : NamingContext) : String :=
  let out := (namingMapping ctx).foldl (fun out kv => pyReplace out kv.1 kv.2) pattern
  ⟨trimSet " _-.".data (dashRun (pairPass '_' out.data))⟩

/-- `build_output_path` (utils.py): sanitise Windows-forbidden
characters to `_`, then join `directory / f"{name}{extension}"`. -/
def build_output_path (directory : String) (filename_no_ext : String)
    (extension : String) : String :=
  let safe := ['\\', '/', ':', '*', '?', '"', '<', '>', '|'].foldl
    (fun s ch => pyReplace s ⟨[ch]⟩ "_") filename_no_ext
  pathJoin directory (safe ++ extension)

/-! ## Data model (`liteconvert/convert.py`) -/

/-- The six conversion modes (the `Mode` literal union). -/
inductive Mode where
  | heicToJpg
  | heicToPng
  | imgToPdfMerged
  | imgToPdfSeparate
  | pdfToJpg
  | pdfToPng
deriving DecidableEq

/-- The mode's user-facing label (the literal strings of `Mode`),
used by the `{mode}` naming token. -/
def modeLabel : Mode → String
  | .heicToJpg => "HEIC → JPG"
  | .heicToPng => "HEIC → PNG"
  | .imgToPdfMerged => "JPG/PNG → PDF (single merged)"
  | .imgToPdfSeparate => "JPG/PNG → PDF (separate files)"
  | .pdfToJpg => "PDF → JPG"
  | .pdfToPng => "PDF → PNG"

/-- `OverwritePolicy` literal union. -/
inductive OverwritePolicy where
  | skip
  | autoRename
  | overwrite
deriving DecidableEq

/-- `JobSpec` (convert.py).  `quality` and `dpi` only parameterise codec
behaviour, which the oracles absorb, but are kept for completeness. -/
structure JobSpec where
  input_path : String
  mode : Mode
  output_dir : String
  naming_pattern : String
  overwrite_policy : OverwritePolicy
  preserve_exif_orientation : Bool := true
  quality : Int := 90
  dpi : Int := 200
  page_range : String := ""
  page_size : String := "Auto"
  fit_mode : String := "Fit"
  margins_mm : Int := 0
deriving DecidableEq

instance : Inhabited JobSpec :=
  ⟨{ input_path := "", mode := .heicToJpg, output_dir := "",
     naming_pattern := "", overwrite_policy := .overwrite }⟩

/-- `ConversionResult` (convert.py).  `elapsed_s` is fixed to `0`
(wall-clock time is not modelled). -/
structure ConversionResult where
  success : Bool
  outputs : List String
  errors : List String
  elapsed_s : Nat := 0
  pages : Nat := 0
deriving DecidableEq

/-! ## Filesystem and effect oracles -/

/-- A file's content: `emptyFile` is a file created by `open("wb")`
whose write never happened; `content` is fully written data. -/
inductive FileContent where
  | emptyFile
  | content (bytes : String)
deriving DecidableEq

/-- The filesystem: an association of paths to file contents (newest
entry shadows older ones; finiteness mirrors a real directory and gives
`ensure_unique_path` its termination bound). -/
def FS : Type := List (String × FileContent)

instance : DecidableEq FS := by unfold FS; infer_instance

/-- Content of the file at `p`, if any. -/
def fsLookup (fs : FS) (p : String) : Option FileContent :=
  match fs with
  | [] => none
  | (q, c) :: rest => if q = p then some c else fsLookup rest p

/-- `path.exists()`. -/
def fsExists (fs : FS) (p : String) : Bool := (fsLookup fs p).isSome

/-- Create/overwrite the file at `p`. -/
def fsSet (fs : FS) (p : String) (c : FileContent) : FS := (p, c) :: fs

/-- Abstraction of `img2pdf`'s page-layout function: `none` when the
Python code passes `layout_fun=None`; otherwise the page size in points,
the uniform border (in mm, the pre-`mm_to_pt` value — `mm_to_pt` is
injective so nothing is lost) and the fit mode. -/
inductive PageSizePt where
  | a4
  | letter
deriving DecidableEq

inductive FitModeL where
  | shrink
  | fill
deriving DecidableEq

inductive LayoutSpec where
  | sized (ps : PageSizePt) (borderMm : Nat) (fit : FitModeL)
  | borderOnly (borderMm : Nat)
deriving DecidableEq

/-- `_page_size_to_points` (convert.py, lines 140–149), with the two
fixed sizes kept symbolic instead of as floating-point points. -/
def page_size_to_points (page_size : String) : Option PageSizePt :=
  if page_size = "" ∨ pyLower page_size = "auto" then none
  else if pyLower page_size = "a4" then some .a4
  else if pyLower page_size = "letter" then some .letter
  else none

/-- The layout computation shared by the images→PDF paths
(convert.py lines 167–177 and 201–211). -/
def computeLayout (page_size fit_mode : String) (margins_mm : Int) : Option LayoutSpec :=
  let border : Nat := margins_mm.toNat
  match page_size_to_points page_size with
  | some ps =>
    some (.sized ps border (if pyLower fit_mode = "fit" then .shrink else .fill))
  | none => if border > 0 then some (.borderOnly border) else none

/-- Oracles for every external call that can raise or be observed.
`Except String α`'s `error` carries `str(exc)`.  Quantifying theorems
over `Env` quantifies over all library behaviours. -/
structure Env where
  /-- `Image.open(path)` + `im.load()` (+ the pure PIL pixel work up to
  the save; `apply_exif_orientation_if_needed` swallows its own errors
  and so never raises). -/
  openImage : String → Except String Unit
  /-- `im.save(out_path, ...)`: on success, the encoded bytes. -/
  saveImage : String → Except String String
  /-- `fitz.open(path)`: on success, `doc.page_count`. -/
  fitzOpen : String → Except String Nat
  /-- `doc.load_page(p - 1)` + `page.get_pixmap(...)` for 1-based `p`. -/
  renderPage : String → Int → Except String Unit
  /-- `pix.save(out_path)`: on success, the encoded bytes. -/
  pixSave : String → Except String String
  /-- `img2pdf.convert(images, layout_fun)`: on success, the PDF bytes. -/
  img2pdfConvert : List String → Option LayoutSpec → Except String String
  /-- `path.open("wb")` succeeding or raising (e.g. permissions). -/
  openWrite : String → Except String Unit
  /-- First poll index at which the cancellation flag reads true
  (`none` = the run is never cancelled). -/
  cancelTime : Option Nat

/-- One poll of `is_cancelled()` at poll counter `c`. -/
def cancelled (env : Env) (c : Nat) : Bool :=
  match env.cancelTime with
  | none => false
  | some t => t ≤ c

/-! ## Collision policy (`_resolve_collision`, `ensure_unique_path`) -/

/-- One candidate `parent / f"{stem}_{idx}{suffix}"`. -/
def uniqueCandidate (path : String) (idx : Nat) : String :=
  pathJoin (pathParent path) (pathStem path ++ "_" ++ toString idx ++ pathSuffix path)

/-- The `while True` search of `ensure_unique_path`.  In Python it runs
until a free candidate is found; candidates for distinct indices are
distinct strings, so with an `n`-entry filesystem some candidate among
the first `n + 1` is free — `ensure_unique_path` supplies that fuel and
the fuel-exhausted arm is unreachable. -/
def uniqueSearch (fs : FS) (path : String) : Nat → Nat → String
  | 0, idx => uniqueCandidate path idx
  | Nat.succ n, idx =>
    let cand := uniqueCandidate path idx
    if fsExists fs cand then uniqueSearch fs path n (idx + 1) else cand

/-- `ensure_unique_path` (utils.py, lines 136–148). -/
def ensure_unique_path (fs : FS) (path : String) : String :=
  if fsExists fs path then uniqueSearch fs path (fs.length + 1) 1 else path

/-- `_resolve_collision` (convert.py, lines 81–87). -/
def resolve_collision (fs : FS) (path : String) (policy : OverwritePolicy) : String :=
  if policy = .overwrite then path
  else if policy = .skip ∧ fsExists fs path then path
  else ensure_unique_path fs path

/-! ## Conversion functions (`liteconvert/convert.py`) -/

/-- The idiom `p = job.naming_pattern and job.naming_pattern.strip()`
followed by `if p: ... else: p = default`. -/
def patternOrDefault (pattern dflt : String) : String :=
  let s := pyStripWs pattern
  if s = "" then dflt else s

/-- The inline naming block of `_to_jpg_png` (convert.py, lines
105–112): pattern or `f"{stem}_{target_ext.lstrip('.')}"`, then token
replacement in source order (`{ext}`, `{name}`, `{mode}`, then `{index}`
and `{page}` to empty), then `strip(" _-.")`. -/
def to_jpg_png_name (job : JobSpec) (target_ext : String) : String :=
  let base := patternOrDefault job.naming_pattern
    (pathStem job.input_path ++ "_" ++ pyLstrip "." target_ext)
  let base := pyReplace base "{ext}" (pyLstrip "." (pathSuffix job.input_path))
  let base := pyReplace base "{name}" (pathStem job.input_path)
  let base := pyReplace base "{mode}" (modeLabel job.mode)
  let base := pyReplace base "{index}" ""
  let base := pyReplace base "{page}" ""
  pyStrip " _-." base

/-- The resolved output path of `_to_jpg_png` (lines 113–114). -/
def to_jpg_png_out (fs : FS) (job : JobSpec) (target_ext : String) : String :=
  resolve_collision fs
    (build_output_path job.output_dir (to_jpg_png_name job target_ext)
      ("." ++ pyLower target_ext))
    job.overwrite_policy

/-- `_to_jpg_png` (convert.py, lines 90–137).  The PIL pixel work
(EXIF transpose, RGB conversion, save parameters) is absorbed into the
`openImage` / `saveImage` oracles; a failed save is modelled as leaving
the filesystem unchanged (no claim concerns partial PIL writes). -/
def to_jpg_png (env : Env) (fs : FS) (job : JobSpec) (target_ext : String) :
    ConversionResult × FS :=
  match env.openImage job.input_path with
  | .error e => (⟨false, [], [e], 0, 1⟩, fs)
  | .ok _ =>
    let out_path := to_jpg_png_out fs job target_ext
    if job.overwrite_policy = .skip ∧ fsExists fs out_path then
      (⟨true, [out_path], [], 0, 1⟩, fs)
    else
      match env.saveImage out_path with
      | .error e => (⟨false, [], [e], 0, 1⟩, fs)
      | .ok bytes => (⟨true, [out_path], [], 0, 1⟩, fsSet fs out_path (.content bytes))

/-- `convert_images_to_single_pdf` (convert.py, lines 152–190).
Evaluation order is the Python one: the layout is computed, then
`output_path.open("wb")` creates/truncates the output file, and only
then is `img2pdf.convert` evaluated — so a conversion failure leaves
the already-opened empty file behind. -/
def convert_images_to_single_pdf (env : Env) (fs : FS) (input_images : List String)
    (output_path : String) (page_size : String := "Auto") (fit_mode : String := "Fit")
    (margins_mm : Int := 0) : ConversionResult × FS :=
  let layout := computeLayout page_size fit_mode margins_mm
  match env.openWrite output_path with
  | .error e => (⟨false, [], [e], 0, 0⟩, fs)
  | .ok _ =>
    let fs1 := fsSet fs output_path .emptyFile
    match env.img2pdfConvert input_images layout with
    | .error e => (⟨false, [], [e], 0, 0⟩, fs1)
    | .ok bytes => (⟨true, [output_path], [], 0, 0⟩, fsSet fs1 output_path (.content bytes))

/-- The inline naming block of `_images_to_pdf_separate` (lines
213–221): default `f"{stem}_pdf"`, tokens `{name}`, `{ext}`, `{mode}`,
then `{index}` and `{page}` to empty, then `strip(" _-.")`. -/
def images_to_pdf_separate_name (job : JobSpec) : String :=
  let base := patternOrDefault job.naming_pattern (pathStem job.input_path ++ "_pdf")
  let base := pyReplace base "{name}" (pathStem job.input_path)
  let base := pyReplace base "{ext}" (pyLstrip "." (pathSuffix job.input_path))
  let base := pyReplace base "{mode}" (modeLabel job.mode)
  let base := pyReplace base "{index}" ""
  let base := pyReplace base "{page}" ""
  pyStrip " _-." base

/-- The resolved output path of `_images_to_pdf_separate` (lines 222–223). -/
def images_to_pdf_separate_out (fs : FS) (job : JobSpec) : String :=
  resolve_collision fs
    (build_output_path job.output_dir (images_to_pdf_separate_name job) ".pdf")
    job.overwrite_policy

/-- `_images_to_pdf_separate` (convert.py, lines 193–235); same
open-then-convert write pattern as the merged conversion. -/
def images_to_pdf_separate (env : Env) (fs : FS) (job : JobSpec) :
    ConversionResult × FS :=
  let layout := computeLayout job.page_size job.fit_mode job.margins_mm
  let out_path := images_to_pdf_separate_out fs job
  if job.overwrite_policy = .skip ∧ fsExists fs out_path then
    (⟨true, [out_path], [], 0, 1⟩, fs)
  else
    match env.openWrite out_path with
    | .error e => (⟨false, [], [e], 0, 1⟩, fs)
    | .ok _ =>
      let fs1 := fsSet fs out_path .emptyFile
      match env.img2pdfConvert [job.input_path] layout with
      | .error e => (⟨false, [], [e], 0, 1⟩, fs1)
      | .ok bytes => (⟨true, [out_path], [], 0, 1⟩, fsSet fs1 out_path (.content bytes))

/-- Page selection of `_pdf_to_images` (lines 254–257): parse the page
range against the document's page count, falling back to all pages when
the parse yields nothing. -/
def select_pages (page_range : String) (total_pages : Nat) : List Int :=
  let pages_list := parse_page_range page_range (some (total_pages : Int))
  if pages_list.isEmpty then intRangeFrom1 (total_pages : Int) else pages_list

/-- The per-page naming block of `_pdf_to_images` (lines 267–276):
default `f"{stem}_page-{page_no}"`, tokens `{name}`, `{ext}`, `{mode}`,
`{page}`, then `{index}` to empty, then `strip(" _-.")`. -/
def pdf_page_name (job : JobSpec) (page_no : Int) : String :=
  let base := patternOrDefault job.naming_pattern
    (pathStem job.input_path ++ "_page-" ++ toString page_no)
  let base := pyReplace base "{name}" (pathStem job.input_path)
  let base := pyReplace base "{ext}" (pyLstrip "." (pathSuffix job.input_path))
  let base := pyReplace base "{mode}" (modeLabel job.mode)
  let base := pyReplace base "{page}" (toString page_no)
  let base := pyReplace base "{index}" ""
  pyStrip " _-." base

/-- The per-page error entry `f"Page {page_no}: {exc}"`. -/
def pageErrMsg (page_no : Int) (e : String) : String :=
  "Page " ++ toString page_no ++ ": " ++ e

/-- The page loop of `_pdf_to_images` (lines 261–287): one cancellation
poll per iteration, then the per-page `try` whose failures append a
`Page …:` entry and continue with the next page.  Returns the
accumulated `outputs`, `errors`, filesystem and poll counter. -/
def pdfPagesLoop (env : Env) (job : JobSpec) (fmt : String) :
    List Int → FS → Nat → List String → List String →
    (List String × List String × FS × Nat)
  | [], fs, c, outputs, errors => (outputs, errors, fs, c)
  | page_no :: rest, fs, c, outputs, errors =>
    if cancelled env c then (outputs, errors, fs, c + 1)
    else
      match env.renderPage job.input_path page_no with
      | .error e =>
        pdfPagesLoop env job fmt rest fs (c + 1) outputs (errors ++ [pageErrMsg page_no e])
      | .ok _ =>
        let out_path := resolve_collision fs
          (build_output_path job.output_dir (pdf_page_name job page_no)
            (if fmt = "JPEG" then ".jpg" else ".png"))
          job.overwrite_policy
        if job.overwrite_policy = .skip ∧ fsExists fs out_path then
          pdfPagesLoop env job fmt rest fs (c + 1) (outputs ++ [out_path]) errors
        else
          match env.pixSave out_path with
          | .error e =>
            pdfPagesLoop env job fmt rest fs (c + 1) outputs (errors ++ [pageErrMsg page_no e])
          | .ok bytes =>
            pdfPagesLoop env job fmt rest (fsSet fs out_path (.content bytes)) (c + 1)
              (outputs ++ [out_path]) errors

/-- `_pdf_to_images` (convert.py, lines 238–290): overall `success` is
`len(errors) == 0` and `pages` is `len(outputs)`. -/
def pdf_to_images (env : Env) (fs : FS) (c : Nat) (job : JobSpec) (fmt : String) :
    ConversionResult × FS × Nat :=
  match env.fitzOpen job.input_path with
  | .error e => (⟨false, [], [e], 0, 0⟩, fs, c)
  | .ok total_pages =>
    let pages_list := select_pages job.page_range total_pages
    let r := pdfPagesLoop env job fmt pages_list fs c [] []
    (⟨r.2.1.isEmpty, r.1, r.2.1, 0, r.1.length⟩, r.2.2.1, r.2.2.2)

/-- `convert_job` (convert.py, lines 293–309): dispatch on file type
and mode, with the unsupported-combination fallback. -/
def convert_job (env : Env) (fs : FS) (c : Nat) (job : JobSpec) :
    ConversionResult × FS × Nat :=
  if is_heic_file job.input_path ∧ (job.mode = .heicToJpg ∨ job.mode = .heicToPng) then
    let r := to_jpg_png env fs job (if job.mode = .heicToJpg then "JPG" else "PNG")
    (r.1, r.2, c)
  else if is_image_file job.input_path ∧ job.mode = .imgToPdfSeparate then
    let r := images_to_pdf_separate env fs job
    (r.1, r.2, c)
  else if is_pdf_file job.input_path ∧ (job.mode = .pdfToJpg ∨ job.mode = .pdfToPng) then
    pdf_to_images env fs c job (if job.mode = .pdfToJpg then "JPEG" else "PNG")
  else
    (⟨false, [], ["Unsupported input/mode combination"], 0, 0⟩, fs, c)

/-! ## Batch orchestrator (`liteconvert/workers.py`) -/

/-- `WorkerSummary` (elapsed time not modelled). -/
structure WorkerSummary where
  total : Nat
  ok : Nat
  failed : Nat
deriving DecidableEq

/-- The Qt signals emitted by `ConversionWorker.run`, in emission
order.  Progress fractions (floats) are not modelled. -/
inductive Event where
  | progressItem (idx : Nat)
  | progressTotal
  | statusEv (msg : String)
  | itemDone (idx : Nat) (res : ConversionResult)
  | errorEv (idx : Nat) (msg : String)
  | finished (summary : WorkerSummary)
deriving DecidableEq

/-- The merged-mode naming block (workers.py, lines 75–83), using the
first image job's pattern. -/
def merged_filename (first : JobSpec) : String :=
  let base := patternOrDefault first.naming_pattern (pathStem first.input_path ++ "_merged")
  let base := pyReplace base "{name}" (pathStem first.input_path)
  let base := pyReplace base "{ext}" (pyLstrip "." (pathSuffix first.input_path))
  let base := pyReplace base "{mode}" (modeLabel first.mode)
  let base := pyReplace base "{index}" ""
  let base := pyReplace base "{page}" ""
  pyStrip " _-." base

/-- The merged-mode output path (workers.py, lines 85–86): joined
directly (no `build_output_path` sanitation), collision-resolved with
the first image job's policy. -/
def merged_output_path (fs : FS) (first : JobSpec) : String :=
  resolve_collision fs (pathJoin first.output_dir (merged_filename first ++ ".pdf"))
    first.overwrite_policy

/-- The merged-mode fan-out loop over all jobs (workers.py, lines
89–93 and 106–112): image jobs get a progress and a completion event
with the shared result and are counted, other jobs only advance total
progress.  The skip branch runs the same loop shape with counters
ignored. -/
def mergedLoop (res : ConversionResult) :
    List JobSpec → Nat → Nat → Nat → (List Event × Nat × Nat)
  | [], _, ok, failed => ([], ok, failed)
  | j :: rest, idx, ok, failed =>
    if is_image_file j.input_path then
      let r := mergedLoop res rest (idx + 1)
        (if res.success then ok + 1 else ok) (if res.success then failed else failed + 1)
      (Event.progressItem idx :: Event.itemDone idx res :: Event.progressTotal :: r.1,
        r.2.1, r.2.2)
    else
      let r := mergedLoop res rest (idx + 1) ok failed
      (Event.progressTotal :: r.1, r.2.1, r.2.2)

/-- The per-item loop (workers.py, lines 117–135): a cancellation poll
before each job, then status, conversion, completion event and
ok/failed accounting.  (The defensive `except` around `convert_job` is
dead in the model because `convert_job` is total — exactly the
propagation contract being verified.) -/
def runItems (env : Env) :
    List JobSpec → Nat → FS → Nat → Nat → Nat →
    (List Event × FS × Nat × Nat × Nat)
  | [], _, fs, c, ok, failed => ([], fs, c, ok, failed)
  | job :: rest, idx, fs, c, ok, failed =>
    if cancelled env c then ([], fs, c + 1, ok, failed)
    else
      let step := convert_job env fs (c + 1) job
      let r := runItems env rest (idx + 1) step.2.1 step.2.2
        (if step.1.success then ok + 1 else ok)
        (if step.1.success then failed else failed + 1)
      (Event.statusEv ("Processing " ++ lastComponent job.input_path ++ "…") ::
        Event.itemDone idx step.1 :: Event.progressTotal :: r.1,
        r.2.1, r.2.2.1, r.2.2.2.1, r.2.2.2.2)

/-- `ConversionWorker.run` (workers.py, lines 61–137): the merged-mode
special case when the batch contains a merged-mode job AND at least one
image-input job (otherwise the code falls through to the per-item
loop), ending in exactly one `finished` summary. -/
def worker_run (env : Env) (fs : FS) (jobs : List JobSpec) : List Event × FS :=
  let total := jobs.length
  let mergedMode := jobs.any (fun j => decide (j.mode = Mode.imgToPdfMerged))
  let imageJobs := jobs.filter (fun j => is_image_file j.input_path)
  if mergedMode ∧ imageJobs ≠ [] then
    let first := imageJobs.headI
    let output_path := merged_output_path fs first
    if first.overwrite_policy = .skip ∧ fsExists fs output_path then
      let res : ConversionResult := ⟨true, [output_path], [], 0, 0⟩
      let r := mergedLoop res jobs 0 0 0
      (r.1 ++ [Event.finished ⟨total, imageJobs.length, 0⟩], fs)
    else
      let conv := convert_images_to_single_pdf env fs
        (imageJobs.map (fun j => j.input_path)) output_path
        first.page_size first.fit_mode first.margins_mm
      let r := mergedLoop conv.1 jobs 0 0 0
      (Event.statusEv "Merging images into single PDF…" ::
        r.1 ++ [Event.finished ⟨total, r.2.1, r.2.2⟩], conv.2)
  else
    let r := runItems env jobs 0 fs 0 0 0
    (r.1 ++ [Event.finished ⟨total, r.2.2.2.1, r.2.2.2.2⟩], r.2.1)

/-- The shared `ConversionResult` the worker attaches to every image
job of a merged batch (workers.py, lines 73–104): either the `Skip`
short-circuit result or the result of the single merged conversion —
in both cases the output path, collision policy, page size, fit mode
and margins are drawn from the *first* image-input job. -/
def mergedSharedResult (env : Env) (fs : FS) (jobs : List JobSpec) : ConversionResult :=
  let imageJobs := jobs.filter (fun j => is_image_file j.input_path)
  let first := imageJobs.headI
  let output_path := merged_output_path fs first
  if first.overwrite_policy = .skip ∧ fsExists fs output_path then
    ⟨true, [output_path], [], 0, 0⟩
  else
    (convert_images_to_single_pdf env fs (imageJobs.map (fun j => j.input_path))
      output_path first.page_size first.fit_mode first.margins_mm).1

/-- Indices carried by `itemDone` events. -/
def itemDoneIdxs (evs : List Event) : List Nat :=
  evs.filterMap (fun e => match e with | .itemDone i _ => some i | _ => none)

/-- Indices carried by `error` (defect) events. -/
def errorEvIdxs (evs : List Event) : List Nat :=
  evs.filterMap (fun e => match e with | .errorEv i _ => some i | _ => none)

/-- Summaries carried by `finished` events. -/
def finishedSummaries (evs : List Event) : List WorkerSummary :=
  evs.filterMap (fun e => match e with | .finished s => some s | _ => none)

/-! ## Concrete environments and jobs (used by witnesses and
counterexamples) -/

/-- An environment where every library call succeeds and the run is
never cancelled. -/
def envAllOk : Env :=
  { openImage := fun _ => .ok ()
    saveImage := fun _ => .ok "IMG"
    fitzOpen := fun _ => .ok 2
    renderPage := fun _ _ => .ok ()
    pixSave := fun _ => .ok "PIX"
    img2pdfConvert := fun _ _ => .ok "PDF"
    openWrite := fun _ => .ok ()
    cancelTime := none }

/-- `envAllOk`, but the cancellation flag reads true from poll `t` on. -/
def envCancelAt (t : Nat) : Env := { envAllOk with cancelTime := some t }

/-- `envAllOk`, but `Image.open` raises. -/
def envOpenFails : Env := { envAllOk with openImage := fun _ => .error "cannot identify image file" }

/-- `envAllOk`, but `img2pdf.convert` raises (e.g. an unreadable input
image). -/
def envImg2pdfFails : Env :=
  { envAllOk with img2pdfConvert := fun _ _ => .error "unreadable image" }

/-- `envAllOk`, but rendering page 2 raises. -/
def envPage2Fails : Env :=
  { envAllOk with renderPage := fun _ p => if p = 2 then .error "bad page" else .ok () }

/-- A HEIC→JPG job with default naming into `out/`. -/
def jobHeic : JobSpec :=
  { input_path := "in/a.heic", mode := .heicToJpg, output_dir := "out",
    naming_pattern := "", overwrite_policy := .overwrite }

/-- A merged-mode job whose input is a PDF (not an image). -/
def jobMergedPdfInput : JobSpec :=
  { input_path := "in/doc.pdf", mode := .imgToPdfMerged, output_dir := "out",
    naming_pattern := "", overwrite_policy := .overwrite }

/-- A merged-mode job with a PNG input. -/
def jobMergedPng : JobSpec :=
  { input_path := "in/b.png", mode := .imgToPdfMerged, output_dir := "out",
    naming_pattern := "", overwrite_policy := .overwrite }

/-- A PDF→PNG job over all pages. -/
def jobPdf : JobSpec :=
  { input_path := "in/doc.pdf", mode := .pdfToPng, output_dir := "out",
    naming_pattern := "", overwrite_policy := .overwrite }

/-- A PDF job whose page range is syntactically present but selects
nothing. -/
def jobPdfBadRange : JobSpec := { jobPdf with page_range := "abc,0,9" }

/-- A `Skip`-policy HEIC→JPG job. -/
def jobHeicSkip : JobSpec := { jobHeic with overwrite_policy := .skip }

/-! ## Event-projection lemmas -/

theorem itemDoneIdxs_append (a b : List Event) :
    itemDoneIdxs (a ++ b) = itemDoneIdxs a ++ itemDoneIdxs b :=
  List.filterMap_append ..

theorem errorEvIdxs_append (a b : List Event) :
    errorEvIdxs (a ++ b) = errorEvIdxs a ++ errorEvIdxs b :=
  List.filterMap_append ..

theorem finishedSummaries_append (a b : List Event) :
    finishedSummaries (a ++ b) = finishedSummaries a ++ finishedSummaries b :=
  List.filterMap_append ..

/-! ## The per-item loop -/

/-- Loop invariant of the per-item path: completion events are emitted
exactly for the consecutive run of jobs processed before the
cancellation check fired (indices `idx, idx+1, …`), no defect and no
summary event is emitted by the loop itself, and each processed job
adds exactly one to `ok + failed`. -/
theorem runItems_spec (env : Env) :
    ∀ (jobs : List JobSpec) (idx : Nat) (fs : FS) (c ok failed : Nat),
      itemDoneIdxs (runItems env jobs idx fs c ok failed).1 =
        List.range' idx (itemDoneIdxs (runItems env jobs idx fs c ok failed).1).length ∧
      errorEvIdxs (runItems env jobs idx fs c ok failed).1 = [] ∧
      finishedSummaries (runItems env jobs idx fs c ok failed).1 = [] ∧
      (runItems env jobs idx fs c ok failed).2.2.2.1 +
          (runItems env jobs idx fs c ok failed).2.2.2.2 =
        ok + failed + (itemDoneIdxs (runItems env jobs idx fs c ok failed).1).length ∧
      (itemDoneIdxs (runItems env jobs idx fs c ok failed).1).length ≤ jobs.length := by
  intro jobs
  induction jobs with
  | nil =>
    intro idx fs c ok failed
    simp [runItems, itemDoneIdxs, errorEvIdxs, finishedSummaries]
  | cons job rest ih =>
    intro idx fs c ok failed
    by_cases hcan : cancelled env c = true
    · simp [runItems, hcan, itemDoneIdxs, errorEvIdxs, finishedSummaries]
    · have hcan' : cancelled env c = false := by simpa using hcan
      simp only [runItems, hcan', Bool.false_eq_true, if_false]
      obtain ⟨h1, h2, h3, h4, h5⟩ := ih (idx + 1) (convert_job env fs (c + 1) job).2.1
        (convert_job env fs (c + 1) job).2.2
        (if (convert_job env fs (c + 1) job).1.success then ok + 1 else ok)
        (if (convert_job env fs (c + 1) job).1.success then failed else failed + 1)
      refine ⟨?_, ?_, ?_, ?_, ?_⟩
      · simp only [itemDoneIdxs, List.filterMap_cons] at *
        simp only [List.length_cons, List.range'_succ, List.cons.injEq, true_and]
        exact h1
      · simpa [errorEvIdxs] using h2
      · simpa [finishedSummaries] using h3
      · simp only [itemDoneIdxs, List.filterMap_cons] at *
        simp only [List.length_cons]
        rw [h4]
        by_cases hs : (convert_job env fs (c + 1) job).1.success = true <;> simp [hs] <;> omega
      · simp only [itemDoneIdxs, List.filterMap_cons] at *
        simp only [List.length_cons, List.length_cons]
        omega

/-! ## The merged-mode fan-out loop -/

/-- Loop invariant of the merged-mode fan-out: completion events carry
exactly the shared result `res` and occur exactly at the indices of
image-input jobs; the loop emits no defect and no summary event; and
each image job adds exactly one to `ok + failed`. -/
theorem mergedLoop_spec (res : ConversionResult) :
    ∀ (jobsL : List JobSpec) (idx ok failed : Nat),
      (∀ i r', Event.itemDone i r' ∈ (mergedLoop res jobsL idx ok failed).1 →
        r' = res ∧ ∃ d, ∃ h : d < jobsL.length, i = idx + d ∧
          is_image_file (jobsL.get ⟨d, h⟩).input_path = true) ∧
      (∀ d, (h : d < jobsL.length) →
        is_image_file (jobsL.get ⟨d, h⟩).input_path = true →
        Event.itemDone (idx + d) res ∈ (mergedLoop res jobsL idx ok failed).1) ∧
      errorEvIdxs (mergedLoop res jobsL idx ok failed).1 = [] ∧
      finishedSummaries (mergedLoop res jobsL idx ok failed).1 = [] ∧
      (mergedLoop res jobsL idx ok failed).2.1 + (mergedLoop res jobsL idx ok failed).2.2 =
        ok + failed + (jobsL.filter (fun j => is_image_file j.input_path)).length := by
  intro jobsL
  induction jobsL with
  | nil =>
    intro idx ok failed
    refine ⟨?_, ?_, ?_, ?_, ?_⟩ <;> simp [mergedLoop, errorEvIdxs, finishedSummaries]
  | cons j rest ih =>
    intro idx ok failed
    by_cases hj : is_image_file j.input_path = true
    · simp only [mergedLoop, hj, if_true]
      obtain ⟨ih1, ih2, ih3, ih4, ih5⟩ := ih (idx + 1)
        (if res.success then ok + 1 else ok) (if res.success then failed else failed + 1)
      refine ⟨?_, ?_, ?_, ?_, ?_⟩
      · intro i r' hmem
        simp only [List.mem_cons] at hmem
        rcases hmem with h | h | h | h
        · exact absurd h (by simp)
        · injection h with h1 h2
          refine ⟨h2, 0, Nat.succ_pos _, by omega, ?_⟩
          simpa using hj
        · exact absurd h (by simp)
        · obtain ⟨hr, d, hd, hi, him⟩ := ih1 i r' h
          exact ⟨hr, d + 1, Nat.succ_lt_succ hd, by omega, by simpa using him⟩
      · intro d h him
        cases d with
        | zero =>
          simp only [Nat.add_zero]
          exact List.mem_cons_of_mem _ (List.mem_cons_self _ _)
        | succ e =>
          have hmem := ih2 e (Nat.lt_of_succ_lt_succ h) (by simpa using him)
          rw [show idx + (e + 1) = (idx + 1) + e by omega]
          exact List.mem_cons_of_mem _ (List.mem_cons_of_mem _ (List.mem_cons_of_mem _ hmem))
      · simpa [errorEvIdxs] using ih3
      · simpa [finishedSummaries] using ih4
      · rw [ih5]
        cases hres : res.success <;> simp [List.filter_cons, hj] <;> omega
    · have hj' : is_image_file j.input_path = false := by simpa using hj
      simp only [mergedLoop, hj', Bool.false_eq_true, if_false]
      obtain ⟨ih1, ih2, ih3, ih4, ih5⟩ := ih (idx + 1) ok failed
      refine ⟨?_, ?_, ?_, ?_, ?_⟩
      · intro i r' hmem
        simp only [List.mem_cons] at hmem
        rcases hmem with h | h
        · exact absurd h (by simp)
        · obtain ⟨hr, d, hd, hi, him⟩ := ih1 i r' h
          exact ⟨hr, d + 1, Nat.succ_lt_succ hd, by omega, by simpa using him⟩
      · intro d h him
        cases d with
        | zero =>
          exfalso
          simp [hj'] at him
        | succ e =>
          have hmem := ih2 e (Nat.lt_of_succ_lt_succ h) (by simpa using him)
          rw [show idx + (e + 1) = (idx + 1) + e by omega]
          exact List.mem_cons_of_mem _ hmem
      · simpa [errorEvIdxs] using ih3
      · simpa [finishedSummaries] using ih4
      · simpa [List.filter_cons, hj'] using ih5

/- Sanity examples (Python ground truth). -/
example : convert_job envAllOk [] 0 jobHeic =
    (⟨true, ["out/a_JPG.jpg"], [], 0, 1⟩, [("out/a_JPG.jpg", .content "IMG")], 0) := by decide
example : (convert_job envAllOk [] 0 jobMergedPdfInput).1 =
    ⟨false, [], ["Unsupported input/mode combination"], 0, 0⟩ := by decide
example : (convert_job envOpenFails [] 0 jobHeic).1 =
    ⟨false, [], ["cannot identify image file"], 0, 1⟩ := by decide
example : (pdf_to_images envAllOk [] 0 jobPdf "PNG").1 =
    ⟨true, ["out/doc_page-1.png", "out/doc_page-2.png"], [], 0, 2⟩ := by decide
example : (pdf_to_images envPage2Fails [] 0 jobPdf "PNG").1 =
    ⟨false, ["out/doc_page-1.png"], ["Page 2: bad page"], 0, 1⟩ := by decide
example : (worker_run envAllOk [] [jobMergedPdfInput]).1 =
    [.statusEv "Processing doc.pdf…",
     .itemDone 0 ⟨false, [], ["Unsupported input/mode combination"], 0, 0⟩,
     .progressTotal, .finished ⟨1, 0, 1⟩] := by decide
example : (worker_run (envCancelAt 1) [] [jobHeic, jobHeic, jobHeic]).1 =
    [.statusEv "Processing a.heic…",
     .itemDone 0 ⟨true, ["out/a_JPG.jpg"], [], 0, 1⟩,
     .progressTotal, .finished ⟨3, 1, 0⟩] := by decide
example : (worker_run envAllOk [] [jobMergedPdfInput, jobMergedPng]).1 =
    [.statusEv "Merging images into single PDF…", .progressTotal,
     .progressItem 1, .itemDone 1 ⟨true, ["out/b_merged.pdf"], [], 0, 0⟩,
     .progressTotal, .finished ⟨2, 1, 0⟩] := by decide

/-! ## The success/errors invariant, per conversion function -/

theorem to_jpg_png_success_iff (env : Env) (fs : FS) (job : JobSpec) (t : String) :
    (to_jpg_png env fs job t).1.success = true ↔ (to_jpg_png env fs job t).1.errors = [] := by
  unfold to_jpg_png
  cases hop : env.openImage job.input_path with
  | error e => simp
  | ok u =>
    by_cases hskip : job.overwrite_policy = .skip ∧ fsExists fs (to_jpg_png_out fs job t) = true
    · simp [hskip]
    · simp only [if_neg hskip]
      cases hs : env.saveImage (to_jpg_png_out fs job t) <;> simp [hs]

theorem single_pdf_success_iff (env : Env) (fs : FS) (imgs : List String)
    (out ps fm : String) (mm : Int) :
    (convert_images_to_single_pdf env fs imgs out ps fm mm).1.success = true ↔
    (convert_images_to_single_pdf env fs imgs out ps fm mm).1.errors = [] := by
  unfold convert_images_to_single_pdf
  cases ho : env.openWrite out with
  | error e => simp
  | ok u =>
    cases hc : env.img2pdfConvert imgs (computeLayout ps fm mm) <;> simp [hc]

theorem separate_pdf_success_iff (env : Env) (fs : FS) (job : JobSpec) :
    (images_to_pdf_separate env fs job).1.success = true ↔
    (images_to_pdf_separate env fs job).1.errors = [] := by
  unfold images_to_pdf_separate
  set out := images_to_pdf_separate_out fs job with hout
  by_cases hskip : job.overwrite_policy = .skip ∧ fsExists fs out = true
  · simp [hskip]
  · simp only [if_neg hskip]
    cases ho : env.openWrite out with
    | error e => simp
    | ok u =>
      cases hc : env.img2pdfConvert [job.input_path]
        (computeLayout job.page_size job.fit_mode job.margins_mm) <;> simp [hc]

theorem pdf_to_images_success_iff (env : Env) (fs : FS) (c : Nat) (job : JobSpec)
    (fmt : String) :
    (pdf_to_images env fs c job fmt).1.success = true ↔
    (pdf_to_images env fs c job fmt).1.errors = [] := by
  unfold pdf_to_images
  cases hop : env.fitzOpen job.input_path with
  | error e => simp
  | ok n => simp [List.isEmpty_iff]

/-- `convert_job`'s result satisfies `success = true ↔ errors = []` for
every environment, filesystem and job. -/
theorem convert_job_success_iff (env : Env) (fs : FS) (c : Nat) (job : JobSpec) :
    (convert_job env fs c job).1.success = true ↔
    (convert_job env fs c job).1.errors = [] := by
  unfold convert_job
  split
  · exact to_jpg_png_success_iff ..
  · split
    · exact separate_pdf_success_iff ..
    · split
      · exact pdf_to_images_success_iff ..
      · simp

/-! ## Claim C1 -/

/-- **C1.** For every `JobSpec` and every behaviour of the codec
libraries (any `Env`), `convert_job` returns a `ConversionResult` — in
the model it is a total function even though every oracle may raise, so
no exception propagates to the orchestrator — and every failure is
reported as `success = false` with a non-empty `errors` list. -/
theorem c1_convert_job_total_failure_reported (env : Env) (fs : FS) (c : Nat)
    (job : JobSpec) :
    (convert_job env fs c job).1.success = false →
    (convert_job env fs c job).1.errors ≠ [] := by
  intro hfail herr
  have := (convert_job_success_iff env fs c job).2 herr
  simp [this] at hfail

/-- Witness for C1: a HEIC job whose image fails to open yields a
failed result with a populated error list. -/
theorem c1_witness :
    (convert_job envOpenFails [] 0 jobHeic).1.success = false ∧
    (convert_job envOpenFails [] 0 jobHeic).1.errors ≠ [] :=
  ⟨by decide, c1_convert_job_total_failure_reported envOpenFails [] 0 jobHeic (by decide)⟩

/-! ## Claim C4 -/

/-- **C4.** For every conversion invocation — `convert_job` in any mode
and `convert_images_to_single_pdf` — `success = true` implies the
`errors` list is empty. -/
theorem c4_success_implies_errors_empty (env : Env) (fs : FS) (c : Nat) (job : JobSpec)
    (imgs : List String) (out ps fm : String) (mm : Int) :
    ((convert_job env fs c job).1.success = true →
      (convert_job env fs c job).1.errors = []) ∧
    ((convert_images_to_single_pdf env fs imgs out ps fm mm).1.success = true →
      (convert_images_to_single_pdf env fs imgs out ps fm mm).1.errors = []) :=
  ⟨fun h => (convert_job_success_iff env fs c job).1 h,
   fun h => (single_pdf_success_iff env fs imgs out ps fm mm).1 h⟩

/-! ## Claim C2 -/

theorem fsLookup_fsSet_self (fs : FS) (p : String) (content : FileContent) :
    fsLookup (fsSet fs p content) p = some content := by
  simp [fsSet, fsLookup]

/-- **C2, counterexample.**  The claim says a failed
`convert_images_to_single_pdf` leaves *nothing* at the output path.
But the Python code evaluates `output_path.open("wb")` (creating and
truncating the file) *before* `img2pdf.convert(...)` runs, so when the
conversion of the images fails (here: an unreadable input image) a
zero-byte file remains at the output path even though the result is a
failure. -/
theorem c2_counterexample_failed_merge_leaves_empty_file :
    (convert_images_to_single_pdf envImg2pdfFails [] ["in/a.png"] "out/m.pdf"
        "Auto" "Fit" 0).1.success = false ∧
    fsExists ([] : FS) "out/m.pdf" = false ∧
    fsExists (convert_images_to_single_pdf envImg2pdfFails [] ["in/a.png"] "out/m.pdf"
        "Auto" "Fit" 0).2 "out/m.pdf" = true ∧
    fsLookup (convert_images_to_single_pdf envImg2pdfFails [] ["in/a.png"] "out/m.pdf"
        "Auto" "Fit" 0).2 "out/m.pdf" = some .emptyFile := by decide

/-- **C2, amended.**  On failure, `convert_images_to_single_pdf` never
leaves *partial PDF content* at the output path: either the failure
struck before/at opening the output file (the path's previous state is
untouched) or the already-opened file remains empty.  On success the
complete PDF bytes are written in a single write. -/
theorem c2_amended_no_partial_merge_output (env : Env) (fs : FS) (imgs : List String)
    (out ps fm : String) (mm : Int) :
    ((convert_images_to_single_pdf env fs imgs out ps fm mm).1.success = false →
      fsLookup (convert_images_to_single_pdf env fs imgs out ps fm mm).2 out =
          fsLookup fs out ∨
      fsLookup (convert_images_to_single_pdf env fs imgs out ps fm mm).2 out =
          some .emptyFile) ∧
    ((convert_images_to_single_pdf env fs imgs out ps fm mm).1.success = true →
      ∃ bytes, env.img2pdfConvert imgs (computeLayout ps fm mm) = .ok bytes ∧
        fsLookup (convert_images_to_single_pdf env fs imgs out ps fm mm).2 out =
          some (.content bytes)) := by
  unfold convert_images_to_single_pdf
  cases ho : env.openWrite out with
  | error e => exact ⟨fun _ => Or.inl rfl, by simp⟩
  | ok u =>
    cases hc : env.img2pdfConvert imgs (computeLayout ps fm mm) with
    | error e =>
      refine ⟨fun _ => Or.inr ?_, ?_⟩
      · simp [hc, fsLookup_fsSet_self]
      · simp [hc]
    | ok bytes =>
      refine ⟨?_, fun _ => ⟨bytes, rfl, ?_⟩⟩
      · simp [hc]
      · simp [hc, fsLookup_fsSet_self]

/-- Witness for C2 (amended), at the counterexample's input: the failed
merge leaves the output path untouched-or-empty (here: empty). -/
theorem c2_amended_witness :
    fsLookup (convert_images_to_single_pdf envImg2pdfFails [] ["in/a.png"] "out/m.pdf"
        "Auto" "Fit" 0).2 "out/m.pdf" =
      fsLookup ([] : FS) "out/m.pdf" ∨
    fsLookup (convert_images_to_single_pdf envImg2pdfFails [] ["in/a.png"] "out/m.pdf"
        "Auto" "Fit" 0).2 "out/m.pdf" = some .emptyFile :=
  (c2_amended_no_partial_merge_output envImg2pdfFails [] ["in/a.png"] "out/m.pdf"
    "Auto" "Fit" 0).1 (by decide)

/-! ## The page loop of `_pdf_to_images` -/

/-- In an uncancelled run, every selected page contributes exactly one
entry — either an output path or an error — and every error entry
beyond the accumulator is a `Page …:` message for a selected page. -/
theorem pdfPagesLoop_partition (env : Env) (job : JobSpec) (fmt : String)
    (hnc : env.cancelTime = none) :
    ∀ (pages : List Int) (fs : FS) (c : Nat) (outs errs : List String),
      (pdfPagesLoop env job fmt pages fs c outs errs).1.length +
          (pdfPagesLoop env job fmt pages fs c outs errs).2.1.length =
        outs.length + errs.length + pages.length ∧
      ∀ e ∈ (pdfPagesLoop env job fmt pages fs c outs errs).2.1,
        e ∈ errs ∨ ∃ p ∈ pages, ∃ msg, e = pageErrMsg p msg := by
  intro pages
  induction pages with
  | nil =>
    intro fs c outs errs
    exact ⟨by simp [pdfPagesLoop], fun e he => Or.inl (by simpa [pdfPagesLoop] using he)⟩
  | cons p rest ih =>
    intro fs c outs errs
    have hcan : cancelled env c = false := by simp [cancelled, hnc]
    simp only [pdfPagesLoop, hcan, Bool.false_eq_true, if_false]
    cases hr : env.renderPage job.input_path p with
    | error e =>
      simp only [hr]
      obtain ⟨h1, h2⟩ := ih fs (c + 1) outs (errs ++ [pageErrMsg p e])
      refine ⟨by rw [h1]; simp; omega, ?_⟩
      intro x hx
      rcases h2 x hx with hin | ⟨q, hq, msg, rfl⟩
      · rcases List.mem_append.mp hin with h | h
        · exact Or.inl h
        · simp only [List.mem_singleton] at h
          exact Or.inr ⟨p, by simp, e, h⟩
      · exact Or.inr ⟨q, by simp [hq], msg, rfl⟩
    | ok u =>
      simp only [hr]
      by_cases hskip : job.overwrite_policy = .skip ∧
          fsExists fs (resolve_collision fs
            (build_output_path job.output_dir (pdf_page_name job p)
              (if fmt = "JPEG" then ".jpg" else ".png")) job.overwrite_policy) = true
      · simp only [if_pos hskip]
        obtain ⟨h1, h2⟩ := ih fs (c + 1)
          (outs ++ [resolve_collision fs
            (build_output_path job.output_dir (pdf_page_name job p)
              (if fmt = "JPEG" then ".jpg" else ".png")) job.overwrite_policy]) errs
        refine ⟨by rw [h1]; simp; omega, ?_⟩
        intro x hx
        rcases h2 x hx with hin | ⟨q, hq, msg, rfl⟩
        · exact Or.inl hin
        · exact Or.inr ⟨q, by simp [hq], msg, rfl⟩
      · simp only [if_neg hskip]
        cases hs : env.pixSave (resolve_collision fs
            (build_output_path job.output_dir (pdf_page_name job p)
              (if fmt = "JPEG" then ".jpg" else ".png")) job.overwrite_policy) with
        | error e =>
          simp only [hs]
          obtain ⟨h1, h2⟩ := ih fs (c + 1) outs (errs ++ [pageErrMsg p e])
          refine ⟨by rw [h1]; simp; omega, ?_⟩
          intro x hx
          rcases h2 x hx with hin | ⟨q, hq, msg, rfl⟩
          · rcases List.mem_append.mp hin with h | h
            · exact Or.inl h
            · simp only [List.mem_singleton] at h
              exact Or.inr ⟨p, by simp, e, h⟩
          · exact Or.inr ⟨q, by simp [hq], msg, rfl⟩
        | ok bytes =>
          simp only [hs]
          obtain ⟨h1, h2⟩ := ih
            (fsSet fs (resolve_collision fs
              (build_output_path job.output_dir (pdf_page_name job p)
                (if fmt = "JPEG" then ".jpg" else ".png")) job.overwrite_policy)
              (.content bytes)) (c + 1)
            (outs ++ [resolve_collision fs
              (build_output_path job.output_dir (pdf_page_name job p)
                (if fmt = "JPEG" then ".jpg" else ".png")) job.overwrite_policy]) errs
          refine ⟨by rw [h1]; simp; omega, ?_⟩
          intro x hx
          rcases h2 x hx with hin | ⟨q, hq, msg, rfl⟩
          · exact Or.inl hin
          · exact Or.inr ⟨q, by simp [hq], msg, rfl⟩

/-! ## Claim C3 -/

/-- **C3** (code bug).  `parse_page_range` promises (docstring and
spec) page numbers within `[1, max_pages]`, but the `start <= 0`
clamp runs *before* the `end < start` swap, so a reversed range whose
right endpoint is non-positive emits `0` (and negative values): at the
failing input `"3-0"` with `max_pages = 5` the code returns
`[0, 1, 2, 3]`, which is not contained in `[1, 5]`.  The claim's
positive example does hold. -/
theorem c3_reversed_range_escapes_lower_bound :
    parse_page_range "3-0" (some 5) = [0, 1, 2, 3] ∧
    ¬(∀ n ∈ parse_page_range "3-0" (some 5), 1 ≤ n ∧ n ≤ 5) ∧
    parse_page_range "1-3,5,2" (some 5) = [1, 2, 3, 5] := by decide

/-! ## Claim C8 -/

/-- **C8.** Under the `Skip` collision policy, when the resolved output
path already exists, a single-output conversion job (HEIC→JPG/PNG via
`_to_jpg_png`, or JPG/PNG→PDF via `_images_to_pdf_separate`) reports
success with the existing path as its sole output, an empty error list,
and performs no write: the returned filesystem is exactly the initial
one. -/
theorem c8_skip_existing_reports_success_no_write (env : Env) (fs : FS) (c : Nat)
    (job : JobSpec) (hskip : job.overwrite_policy = .skip) :
    (∀ t, (job.mode = .heicToJpg ∧ t = "JPG" ∨ job.mode = .heicToPng ∧ t = "PNG") →
      is_heic_file job.input_path = true →
      env.openImage job.input_path = .ok () →
      fsExists fs (to_jpg_png_out fs job t) = true →
      convert_job env fs c job =
        (⟨true, [to_jpg_png_out fs job t], [], 0, 1⟩, fs, c)) ∧
    (job.mode = .imgToPdfSeparate →
      is_image_file job.input_path = true →
      fsExists fs (images_to_pdf_separate_out fs job) = true →
      convert_job env fs c job =
        (⟨true, [images_to_pdf_separate_out fs job], [], 0, 1⟩, fs, c)) := by
  constructor
  · rintro t (⟨hm, rfl⟩ | ⟨hm, rfl⟩) hheic hopen hex
    · simp [convert_job, to_jpg_png, hm, hheic, hopen, hskip, hex]
    · simp [convert_job, to_jpg_png, hm, hheic, hopen, hskip, hex]
  · intro hm himg hex
    simp [convert_job, images_to_pdf_separate, hm, himg, hskip, hex]

/-! ## Claim C7 -/

/-- **C7.**  In an uncancelled PDF→JPG/PNG job whose document opens
with `n` pages, per-page failures do not stop processing: every
selected page is accounted for either in `outputs` or by exactly one
`errors` entry (`outputs.length + errors.length` equals the number of
selected pages), each error entry is a `"Page {p}: …"` message naming a
selected page, the job succeeds exactly when no page failed, and the
reported page count is the number of succeeded pages. -/
theorem c7_pdf_per_page_failures_continue (env : Env) (fs : FS) (c : Nat)
    (job : JobSpec) (fmt : String) (n : Nat)
    (hopen : env.fitzOpen job.input_path = .ok n) (hnc : env.cancelTime = none) :
    ((pdf_to_images env fs c job fmt).1.success = true ↔
      (pdf_to_images env fs c job fmt).1.errors = []) ∧
    (∀ e ∈ (pdf_to_images env fs c job fmt).1.errors,
      ∃ p ∈ select_pages job.page_range n, ∃ msg, e = pageErrMsg p msg) ∧
    (pdf_to_images env fs c job fmt).1.outputs.length +
        (pdf_to_images env fs c job fmt).1.errors.length =
      (select_pages job.page_range n).length ∧
    (pdf_to_images env fs c job fmt).1.pages =
      (pdf_to_images env fs c job fmt).1.outputs.length := by
  obtain ⟨h1, h2⟩ := pdfPagesLoop_partition env job fmt hnc
    (select_pages job.page_range n) fs c [] []
  refine ⟨?_, ?_, ?_, ?_⟩
  · simp [pdf_to_images, hopen, List.isEmpty_iff]
  · intro e he
    have he' : e ∈ (pdfPagesLoop env job fmt (select_pages job.page_range n) fs c [] []).2.1 := by
      simpa [pdf_to_images, hopen] using he
    rcases h2 e he' with hin | hgood
    · simp at hin
    · exact hgood
  · simpa [pdf_to_images, hopen] using h1
  · simp [pdf_to_images, hopen]

/-- Witness for C7 at a concrete two-page document whose second page
fails to render: one output, one error, partitioning both pages. -/
theorem c7_witness :
    (pdf_to_images envPage2Fails [] 0 jobPdf "PNG").1.outputs.length +
        (pdf_to_images envPage2Fails [] 0 jobPdf "PNG").1.errors.length =
      (select_pages jobPdf.page_range 2).length :=
  (c7_pdf_per_page_failures_continue envPage2Fails [] 0 jobPdf "PNG" 2 rfl rfl).2.2.1

/-! ## Claim C10 -/

theorem intRangeFrom1_natCast_length (n : Nat) :
    (intRangeFrom1 (n : Int)).length = n := by
  unfold intRangeFrom1
  split
  · rename_i h
    simp only [List.length_nil]
    omega
  · simp only [List.length_map, List.length_range]
    omega

/-- **C10.**  A PDF→image job whose non-empty `page_range` parses to an
empty selection (all tokens malformed, non-positive or beyond the page
count) silently falls back to the full range `1..n`: the selected pages
are exactly `1..n` and, uncancelled, the conversion accounts for all
`n` pages in `outputs`/`errors` — it does not produce zero outputs. -/
theorem c10_empty_parse_falls_back_to_all_pages (env : Env) (fs : FS) (c : Nat)
    (job : JobSpec) (fmt : String) (n : Nat)
    (_hpr : job.page_range ≠ "")
    (hempty : parse_page_range job.page_range (some (n : Int)) = [])
    (hopen : env.fitzOpen job.input_path = .ok n) (hnc : env.cancelTime = none) :
    select_pages job.page_range n = intRangeFrom1 (n : Int) ∧
    (pdf_to_images env fs c job fmt).1.outputs.length +
        (pdf_to_images env fs c job fmt).1.errors.length = n := by
  have hsel : select_pages job.page_range n = intRangeFrom1 (n : Int) := by
    simp [select_pages, hempty]
  refine ⟨hsel, ?_⟩
  have := (c7_pdf_per_page_failures_continue env fs c job fmt n hopen hnc).2.2.1
  rw [hsel, intRangeFrom1_natCast_length] at this
  exact this

/-- Witness for C10: `"abc,0,9"` over a 2-page document parses to
nothing, and the conversion still covers both pages. -/
theorem c10_witness :
    select_pages jobPdfBadRange.page_range 2 = intRangeFrom1 (2 : Int) ∧
    (pdf_to_images envAllOk [] 0 jobPdfBadRange "PNG").1.outputs.length +
        (pdf_to_images envAllOk [] 0 jobPdfBadRange "PNG").1.errors.length = 2 :=
  c10_empty_parse_falls_back_to_all_pages envAllOk [] 0 jobPdfBadRange "PNG" 2
    (by decide) (by decide) rfl rfl

/-- Witness for C8: a second run over an existing `out/a_JPG.jpg`
reports success with that path and leaves the filesystem untouched. -/
theorem c8_witness :
    convert_job envAllOk [("out/a_JPG.jpg", .content "OLD")] 0 jobHeicSkip =
      (⟨true, ["out/a_JPG.jpg"], [], 0, 1⟩, [("out/a_JPG.jpg", .content "OLD")], 0) :=
  ((c8_skip_existing_reports_success_no_write envAllOk
      [("out/a_JPG.jpg", .content "OLD")] 0 jobHeicSkip (by decide)).1 "JPG"
    (Or.inl ⟨by decide, rfl⟩) (by decide) rfl (by decide)).trans (by decide)

/-! ## Claim C5 -/

/-- **C5, counterexample.**  The claim quantifies over *every* batch
containing a merged-mode job.  But when such a batch contains no
image-input job at all, the worker falls through to per-item
processing: here a single merged-mode job with a PDF input — a
non-image job — receives a completion event, and the summary counts it
in `failed`, so `ok + failed = 1 ≠ 0 =` number of image-input jobs. -/
theorem c5_counterexample_merged_batch_without_images :
    (∃ j ∈ [jobMergedPdfInput], j.mode = Mode.imgToPdfMerged) ∧
    is_image_file jobMergedPdfInput.input_path = false ∧
    Event.itemDone 0 ⟨false, [], ["Unsupported input/mode combination"], 0, 0⟩ ∈
      (worker_run envAllOk [] [jobMergedPdfInput]).1 ∧
    finishedSummaries (worker_run envAllOk [] [jobMergedPdfInput]).1 = [⟨1, 0, 1⟩] := by
  decide

/-- **C5, amended.**  For every batch that contains a merged-mode job
*and at least one image-input job*: completion events are emitted
exactly for the image-input jobs, all carrying the one shared result
`mergedSharedResult` (computed from the first image job's naming
pattern, collision policy, page size, fit mode and margins — see its
definition), no defect event is emitted, and the single summary has
`total` = the full batch length with `ok + failed` = the number of
image-input jobs only. -/
theorem c5_merged_batch_shared_result (env : Env) (fs : FS) (jobs : List JobSpec)
    (hmer : (jobs.any fun j => decide (j.mode = Mode.imgToPdfMerged)) = true)
    (himg : (jobs.filter fun j => is_image_file j.input_path) ≠ []) :
    (∀ i r', Event.itemDone i r' ∈ (worker_run env fs jobs).1 →
      r' = mergedSharedResult env fs jobs ∧
      ∃ h : i < jobs.length, is_image_file (jobs.get ⟨i, h⟩).input_path = true) ∧
    (∀ i, (h : i < jobs.length) → is_image_file (jobs.get ⟨i, h⟩).input_path = true →
      Event.itemDone i (mergedSharedResult env fs jobs) ∈ (worker_run env fs jobs).1) ∧
    errorEvIdxs (worker_run env fs jobs).1 = [] ∧
    ∃ ok failed,
      finishedSummaries (worker_run env fs jobs).1 = [⟨jobs.length, ok, failed⟩] ∧
      ok + failed = (jobs.filter fun j => is_image_file j.input_path).length := by
  simp only [worker_run]
  rw [if_pos (⟨hmer, himg⟩ : _ ∧ _)]
  by_cases hskip : (jobs.filter fun j => is_image_file j.input_path).headI.overwrite_policy =
      OverwritePolicy.skip ∧
      fsExists fs (merged_output_path fs
        (jobs.filter fun j => is_image_file j.input_path).headI) = true
  · rw [if_pos hskip]
    have hres : mergedSharedResult env fs jobs =
        ⟨true, [merged_output_path fs (jobs.filter fun j => is_image_file j.input_path).headI],
          [], 0, 0⟩ := by
      simp only [mergedSharedResult]
      rw [if_pos hskip]
    obtain ⟨l1, l2, l3, l4, l5⟩ := mergedLoop_spec
      ⟨true, [merged_output_path fs (jobs.filter fun j => is_image_file j.input_path).headI],
        [], 0, 0⟩ jobs 0 0 0
    refine ⟨?_, ?_, ?_, ?_⟩
    · intro i r' hm
      rcases List.mem_append.mp hm with h | h
      · obtain ⟨hr, d, hd, hi, him⟩ := l1 i r' h
        have hid : i = d := by omega
        subst hid
        exact ⟨hres ▸ hr, hd, him⟩
      · exact absurd h (by simp)
    · intro i h him
      have := l2 i h him
      rw [Nat.zero_add] at this
      rw [hres]
      exact List.mem_append_left _ this
    · rw [errorEvIdxs_append, l3]
      simp [errorEvIdxs]
    · refine ⟨(jobs.filter fun j => is_image_file j.input_path).length, 0, ?_, by omega⟩
      rw [finishedSummaries_append, l4]
      simp [finishedSummaries]
  · rw [if_neg hskip]
    set conv := convert_images_to_single_pdf env fs
      ((jobs.filter fun j => is_image_file j.input_path).map fun j => j.input_path)
      (merged_output_path fs (jobs.filter fun j => is_image_file j.input_path).headI)
      (jobs.filter fun j => is_image_file j.input_path).headI.page_size
      (jobs.filter fun j => is_image_file j.input_path).headI.fit_mode
      (jobs.filter fun j => is_image_file j.input_path).headI.margins_mm with hconv
    have hres : mergedSharedResult env fs jobs = conv.1 := by
      simp only [mergedSharedResult]
      rw [if_neg hskip]
    obtain ⟨l1, l2, l3, l4, l5⟩ := mergedLoop_spec conv.1 jobs 0 0 0
    refine ⟨?_, ?_, ?_, ?_⟩
    · intro i r' hm
      rcases List.mem_cons.mp hm with h | h
      · exact absurd h (by simp)
      rcases List.mem_append.mp h with h' | h'
      · obtain ⟨hr, d, hd, hi, him⟩ := l1 i r' h'
        have hid : i = d := by omega
        subst hid
        exact ⟨hres ▸ hr, hd, him⟩
      · exact absurd h' (by simp)
    · intro i h him
      have := l2 i h him
      rw [Nat.zero_add] at this
      rw [hres]
      exact List.mem_cons_of_mem _ (List.mem_append_left _ this)
    · simp only [errorEvIdxs] at l3 ⊢
      simp [List.filterMap_append, l3]
    · refine ⟨(mergedLoop conv.1 jobs 0 0 0).2.1, (mergedLoop conv.1 jobs 0 0 0).2.2, ?_, ?_⟩
      · simp only [finishedSummaries] at l4 ⊢
        simp [List.filterMap_append, l4]
      · simpa using l5

/-- Witness for C5 (amended) at a two-job batch: one merged-mode PDF
input (excluded from the merge) and one PNG input. -/
theorem c5_witness :
    (∀ i r', Event.itemDone i r' ∈ (worker_run envAllOk [] [jobMergedPdfInput, jobMergedPng]).1 →
      r' = mergedSharedResult envAllOk [] [jobMergedPdfInput, jobMergedPng] ∧
      ∃ h : i < [jobMergedPdfInput, jobMergedPng].length,
        is_image_file ([jobMergedPdfInput, jobMergedPng].get ⟨i, h⟩).input_path = true) ∧
    (∀ i, (h : i < [jobMergedPdfInput, jobMergedPng].length) →
      is_image_file ([jobMergedPdfInput, jobMergedPng].get ⟨i, h⟩).input_path = true →
      Event.itemDone i (mergedSharedResult envAllOk [] [jobMergedPdfInput, jobMergedPng]) ∈
        (worker_run envAllOk [] [jobMergedPdfInput, jobMergedPng]).1) ∧
    errorEvIdxs (worker_run envAllOk [] [jobMergedPdfInput, jobMergedPng]).1 = [] ∧
    ∃ ok failed,
      finishedSummaries (worker_run envAllOk [] [jobMergedPdfInput, jobMergedPng]).1 =
        [⟨[jobMergedPdfInput, jobMergedPng].length, ok, failed⟩] ∧
      ok + failed =
        ([jobMergedPdfInput, jobMergedPng].filter fun j => is_image_file j.input_path).length :=
  c5_merged_batch_shared_result envAllOk [] [jobMergedPdfInput, jobMergedPng]
    (by decide) (by decide)

/-! ## Claim C6 -/

/-- **C6.**  In a per-item run (no merged-mode job in the batch), for
every environment — in particular every cancellation time — the
completion events are emitted exactly for the initial run of jobs
`0, …, k-1` that started before cancellation was observed (so a job
not yet started when the run is cancelled never receives a completion
or defect event), and exactly one summary is emitted, with
`total` = the full batch length and `ok + failed = k`. -/
theorem c6_cancelled_run_skips_unstarted_jobs (env : Env) (fs : FS)
    (jobs : List JobSpec)
    (hper : ∀ j ∈ jobs, j.mode ≠ Mode.imgToPdfMerged) :
    itemDoneIdxs (worker_run env fs jobs).1 =
      List.range (itemDoneIdxs (worker_run env fs jobs).1).length ∧
    errorEvIdxs (worker_run env fs jobs).1 = [] ∧
    (itemDoneIdxs (worker_run env fs jobs).1).length ≤ jobs.length ∧
    ∃ ok failed,
      finishedSummaries (worker_run env fs jobs).1 = [⟨jobs.length, ok, failed⟩] ∧
      ok + failed = (itemDoneIdxs (worker_run env fs jobs).1).length := by
  have hmm : jobs.any (fun j => decide (j.mode = Mode.imgToPdfMerged)) = false := by
    rw [List.any_eq_false]
    intro j hj
    simpa using hper j hj
  obtain ⟨h1, h2, h3, h4, h5⟩ := runItems_spec env jobs 0 fs 0 0 0
  simp only [worker_run, hmm, Bool.false_eq_true, false_and, if_false]
  refine ⟨?_, ?_, ?_, ?_⟩
  · simpa [itemDoneIdxs, List.filterMap_append, List.range_eq_range'] using h1
  · simpa [errorEvIdxs, List.filterMap_append] using h2
  · simpa [itemDoneIdxs, List.filterMap_append] using h5
  · refine ⟨(runItems env jobs 0 fs 0 0 0).2.2.2.1, (runItems env jobs 0 fs 0 0 0).2.2.2.2, ?_, ?_⟩
    · rw [finishedSummaries_append, h3]
      simp [finishedSummaries]
    · simpa [itemDoneIdxs_append, itemDoneIdxs] using h4

/-- Witness for C6, the spec's own scenario: three jobs, cancellation
observed before job 2 starts — completion events exactly for job 0,
one summary with `total = 3` and `ok + failed = 1`. -/
theorem c6_witness :
    itemDoneIdxs (worker_run (envCancelAt 1) [] [jobHeic, jobHeic, jobHeic]).1 =
      List.range (itemDoneIdxs (worker_run (envCancelAt 1) [] [jobHeic, jobHeic, jobHeic]).1).length ∧
    errorEvIdxs (worker_run (envCancelAt 1) [] [jobHeic, jobHeic, jobHeic]).1 = [] ∧
    (itemDoneIdxs (worker_run (envCancelAt 1) [] [jobHeic, jobHeic, jobHeic]).1).length ≤ 3 ∧
    ∃ ok failed,
      finishedSummaries (worker_run (envCancelAt 1) [] [jobHeic, jobHeic, jobHeic]).1 =
        [⟨3, ok, failed⟩] ∧
      ok + failed =
        (itemDoneIdxs (worker_run (envCancelAt 1) [] [jobHeic, jobHeic, jobHeic]).1).length :=
  c6_cancelled_run_skips_unstarted_jobs (envCancelAt 1) [] [jobHeic, jobHeic, jobHeic]
    (by decide)

/-- Witness for C4 at successful concrete runs of both operations. -/
theorem c4_witness :
    (convert_job envAllOk [] 0 jobHeic).1.errors = [] ∧
    (convert_images_to_single_pdf envAllOk [] ["in/b.png"] "out/m.pdf" "Auto" "Fit" 0).1.errors = [] :=
  ⟨(c4_success_implies_errors_empty envAllOk [] 0 jobHeic ["in/b.png"] "out/m.pdf" "Auto" "Fit" 0).1 (by decide),
   (c4_success_implies_errors_empty envAllOk [] 0 jobHeic ["in/b.png"] "out/m.pdf" "Auto" "Fit" 0).2 (by decide)⟩
example : parse_page_range "1-3,5,2" (some 5) = [1, 2, 3, 5] := by decide
example : parse_page_range "" (some 3) = [1, 2, 3] := by decide
example : parse_page_range "abc,4,x-2,9" (some 5) = [4] := by decide
example : parse_page_range "3-0" (some 5) = [0, 1, 2, 3] := by decide
example : parse_page_range "2,2,1-2" (some 5) = [2, 1] := by decide
example : pathStem "dir/a.b.png" = "a.b" ∧ pathSuffix "dir/a.b.png" = ".png" := by decide
example : pathSuffix "d/.bashrc" = "" := by decide
example : pyReplace "x___y" "__" "_" = "x__y" := by decide
example : pyCollapseDD "a----b" = "a-b" := by decide
example : expand_naming_pattern "{name}_{index}_{page}x" ⟨"d/in.HEIC", "HEIC → JPG", none, none⟩ = "in_x" := by decide
example : expand_naming_pattern "a___b" ⟨"d/in.png", "m", none, none⟩ = "a__b" := by decide

/-! ## Bridging the string-replace model and the run-collapse
specification (for claim C9) -/

/-- A single `replace(aa, a)` pass is `pairPass`. -/
theorem replaceFuel_pairPass (a : Char) :
    ∀ (fuel : Nat) (l : List Char), l.length ≤ fuel →
      replaceFuel [a, a] [a] fuel l = pairPass a l := by
  intro fuel
  induction fuel with
  | zero =>
    intro l hl
    have h0 : l = [] := List.eq_nil_of_length_eq_zero (Nat.le_zero.mp hl)
    subst h0
    rfl
  | succ n ih =>
    intro l hl
    match l with
    | [] => rfl
    | [c] =>
      simp [replaceFuel, startsList, pairPass]
    | c :: d :: rest =>
      cases hs : startsList [a, a] (c :: d :: rest) with
      | true =>
        have hsc : a = c ∧ a = d := by
          simpa [startsList, Bool.and_eq_true, beq_iff_eq] using hs
        obtain ⟨h1, h2⟩ := hsc
        subst h1
        subst h2
        have hr : rest.length ≤ n := by simp at hl; omega
        simp [replaceFuel, hs, pairPass, ih rest hr]
      | false =>
        have hne : ¬(c = a ∧ d = a) := by
          rintro ⟨rfl, rfl⟩
          simp [startsList] at hs
        have hr : (d :: rest).length ≤ n := by simp at hl ⊢; omega
        simp only [replaceFuel, hs, Bool.false_eq_true, if_false]
        rw [ih (d :: rest) hr]
        simp [pairPass, hne]

theorem pairPass_length_le (a : Char) :
    ∀ (n : Nat) (l : List Char), l.length ≤ n →
      (pairPass a l).length ≤ l.length := by
  intro n
  induction n with
  | zero =>
    intro l hl
    have h0 : l = [] := List.eq_nil_of_length_eq_zero (Nat.le_zero.mp hl)
    subst h0
    simp [pairPass]
  | succ n ih =>
    intro l hl
    match l with
    | [] => simp [pairPass]
    | [c] => simp [pairPass]
    | c :: d :: rest =>
      by_cases h : c = a ∧ d = a
      · have hr : rest.length ≤ n := by simp at hl; omega
        have hlen := ih rest hr
        simp only [pairPass, if_pos h]
        simp at hlen ⊢
        omega
      · have hr : (d :: rest).length ≤ n := by simp at hl ⊢; omega
        have hlen := ih (d :: rest) hr
        simp only [pairPass, if_neg h]
        simp at hlen ⊢
        omega

theorem hasDD_pairPass_length_lt :
    ∀ (n : Nat) (l : List Char), l.length ≤ n → hasDD l = true →
      (pairPass '-' l).length < l.length := by
  intro n
  induction n with
  | zero =>
    intro l hl hdd
    have h0 : l = [] := List.eq_nil_of_length_eq_zero (Nat.le_zero.mp hl)
    subst h0
    simp [hasDD] at hdd
  | succ n ih =>
    intro l hl hdd
    match l with
    | [] => simp [hasDD] at hdd
    | [c] => simp [hasDD] at hdd
    | c :: d :: rest =>
      by_cases h : c = '-' ∧ d = '-'
      · have hlen := pairPass_length_le '-' rest.length rest (le_refl _)
        simp only [pairPass, if_pos h]
        simp at hlen ⊢
        omega
      · have hfalse : (c == '-' && d == '-') = false := by
          by_cases h1 : c = '-'
          · by_cases h2 : d = '-'
            · exact absurd ⟨h1, h2⟩ h
            · simp [beq_iff_eq, h2]
          · simp [beq_iff_eq, h1]
        have hdd2 : hasDD (d :: rest) = true := by
          simpa [hasDD, hfalse] using hdd
        have hr : (d :: rest).length ≤ n := by simp at hl ⊢; omega
        have hlt := ih (d :: rest) hr hdd2
        simp only [pairPass, if_neg h]
        simp at hlt ⊢
        omega

theorem hasDD_false_dashRun_eq :
    ∀ (n : Nat) (l : List Char), l.length ≤ n → hasDD l = false →
      dashRun l = l := by
  intro n
  induction n with
  | zero =>
    intro l hl _
    have h0 : l = [] := List.eq_nil_of_length_eq_zero (Nat.le_zero.mp hl)
    subst h0
    rfl
  | succ n ih =>
    intro l hl hdd
    match l with
    | [] => rfl
    | [c] => rfl
    | c :: d :: rest =>
      have hsplit : (c == '-' && d == '-') = false ∧ hasDD (d :: rest) = false := by
        constructor
        · cases hval : (c == '-' && d == '-')
          · rfl
          · exfalso
            simp [hasDD, hval] at hdd
        · cases hval : hasDD (d :: rest)
          · rfl
          · exfalso
            simp [hasDD, hval] at hdd
      have hne : ¬(c = '-' ∧ d = '-') := by
        rintro ⟨rfl, rfl⟩
        simp at hsplit
      have hr : (d :: rest).length ≤ n := by simp at hl ⊢; omega
      simp only [dashRun, if_neg hne]
      rw [ih (d :: rest) hr hsplit.2]

/-- `pairPass` preserves the head of a nonempty list. -/
theorem pairPass_cons (a d : Char) (r : List Char) :
    ∃ t, pairPass a (d :: r) = d :: t := by
  cases r with
  | nil => exact ⟨[], rfl⟩
  | cons e r2 =>
    by_cases h : d = a ∧ e = a
    · refine ⟨pairPass a r2, ?_⟩
      rw [show pairPass a (d :: e :: r2) = a :: pairPass a r2 from by
        simp [pairPass, if_pos h]]
      rw [h.1]
    · exact ⟨pairPass a (e :: r2), by simp [pairPass, if_neg h]⟩

/-- One `replace("--", "-")` pass does not change the run-collapse of a
string (stated together with the variant prefixed by a dash, which the
induction needs). -/
theorem dashRun_pairPass :
    ∀ (n : Nat) (l : List Char), l.length ≤ n →
      dashRun (pairPass '-' l) = dashRun l ∧
      dashRun ('-' :: pairPass '-' l) = dashRun ('-' :: l) := by
  intro n
  induction n with
  | zero =>
    intro l hl
    have h0 : l = [] := List.eq_nil_of_length_eq_zero (Nat.le_zero.mp hl)
    subst h0
    exact ⟨rfl, rfl⟩
  | succ n ih =>
    intro l hl
    match l with
    | [] => exact ⟨rfl, rfl⟩
    | [c] => exact ⟨rfl, rfl⟩
    | c :: d :: rest =>
      by_cases h : c = '-' ∧ d = '-'
      · obtain ⟨h1, h2⟩ := h
        subst h1
        subst h2
        have hr : rest.length ≤ n := by simp at hl; omega
        obtain ⟨ih1, ih2⟩ := ih rest hr
        exact ⟨ih2, ih2⟩
      · have hr : (d :: rest).length ≤ n := by simp at hl ⊢; omega
        obtain ⟨ih1, ih2⟩ := ih (d :: rest) hr
        obtain ⟨t, ht⟩ := pairPass_cons '-' d rest
        constructor
        · rw [show pairPass '-' (c :: d :: rest) = c :: pairPass '-' (d :: rest) from by
            simp [pairPass, if_neg h]]
          rw [ht]
          rw [show dashRun (c :: d :: t) = c :: dashRun (d :: t) from by
            simp [dashRun, h]]
          rw [show dashRun (c :: d :: rest) = c :: dashRun (d :: rest) from by
            simp [dashRun, h]]
          rw [← ht, ih1]
        · rw [show pairPass '-' (c :: d :: rest) = c :: pairPass '-' (d :: rest) from by
            simp [pairPass, if_neg h]]
          by_cases hc : c = '-'
          · subst hc
            rw [ht]
            rw [show dashRun ('-' :: '-' :: d :: t) = dashRun ('-' :: d :: t) from by
              simp [dashRun]]
            rw [show dashRun ('-' :: '-' :: d :: rest) = dashRun ('-' :: d :: rest) from by
              simp [dashRun]]
            rw [← ht]
            exact ih2
          · rw [ht]
            rw [show dashRun ('-' :: c :: d :: t) = '-' :: dashRun (c :: d :: t) from by
              simp [dashRun, hc]]
            rw [show dashRun ('-' :: c :: d :: rest) = '-' :: dashRun (c :: d :: rest) from by
              simp [dashRun, hc]]
            rw [show dashRun (c :: d :: t) = c :: dashRun (d :: t) from by
              simp [dashRun, h]]
            rw [show dashRun (c :: d :: rest) = c :: dashRun (d :: rest) from by
              simp [dashRun, h]]
            rw [← ht, ih1]

/-- The `while "--" in out` loop computes exactly the run-collapse. -/
theorem collapseLoop_eq_dashRun :
    ∀ (n : Nat) (l : List Char), l.length < n → collapseLoop n l = dashRun l := by
  intro n
  induction n with
  | zero => intro l h; exact absurd h (Nat.not_lt_zero _)
  | succ n ih =>
    intro l hl
    by_cases hdd : hasDD l = true
    · simp only [collapseLoop, hdd, if_true]
      rw [replaceFuel_pairPass '-' l.length l (le_refl _)]
      have hlt := hasDD_pairPass_length_lt l.length l (le_refl _) hdd
      rw [ih (pairPass '-' l) (by omega)]
      exact (dashRun_pairPass l.length l (le_refl _)).1
    · have hdd2 : hasDD l = false := by simpa using hdd
      simp only [collapseLoop, hdd2, Bool.false_eq_true, if_false]
      exact (hasDD_false_dashRun_eq l.length l (le_refl _) hdd2).symm

/-! ## Claim C9 -/

/-- **C9, counterexample.**  The claim says every run of consecutive
`'_'` is collapsed to a single `'_'`.  But the implementation performs
only ONE `replace("__", "_")` pass (unlike the dash loop), so the
pattern `"x___y"` — no tokens, a three-underscore run — expands to
`"x__y"`, not to the `"x_y"` the claim demands. -/
theorem c9_counterexample_underscore_run_survives :
    expand_naming_pattern "x___y" ⟨"d/in.png", "m", none, none⟩ = "x__y" ∧
    expand_naming_pattern "x___y" ⟨"d/in.png", "m", none, none⟩ ≠ "x_y" := by
  decide

/-- **C9, amended.**  `expand_naming_pattern` substitutes all five
tokens (an absent index or page becoming the empty string), then makes
a single left-to-right pass replacing each non-overlapping pair of
consecutive `'_'` by one `'_'` (longer runs are only halved, not fully
collapsed), then fully collapses every run of consecutive `'-'` to a
single `'-'`, and finally trims leading and trailing `' '`, `'_'`,
`'-'` and `'.'` — proved as an equality with the independently-written
run-collapse specification `expand_naming_pattern_amended`. -/
theorem c9_amended_expand_naming_pattern (pattern : String) (ctx : NamingContext) :
    expand_naming_pattern pattern ctx = expand_naming_pattern_amended pattern ctx := by
  unfold expand_naming_pattern expand_naming_pattern_amended
  have key : ∀ s : String,
      (pyCollapseDD (pyReplace s "__" "_")).data = dashRun (pairPass '_' s.data) := by
    intro s
    have e1 : (pyReplace s "__" "_").data = pairPass '_' s.data :=
      replaceFuel_pairPass '_' s.data.length s.data (le_refl _)
    show collapseLoop ((pyReplace s "__" "_").data.length + 1) (pyReplace s "__" "_").data =
      dashRun (pairPass '_' s.data)
    rw [e1]
    exact collapseLoop_eq_dashRun ((pairPass '_' s.data).length + 1) (pairPass '_' s.data)
      (Nat.lt_succ_self _)
  dsimp only
  rw [← key]
  rfl
